import Mathlib

/-!
Verification of the batch OCR pipeline (`batch_ocr_pipeline.py`).

The script is sequential glue code: split a PDF into fixed-size page chunks,
classify each chunk as text-bearing or scanned, extract text directly from the
former, route the latter through a remote batch OCR API (upload, manifest,
job creation, polling, download), and merge everything into one output string.

The shallow embedding below models the external world (PDF extraction results,
HTTP responses, the poll stream) as explicit oracles.  Fallible steps return
`Except RunErr`; the unbounded poll loop takes explicit fuel and reports
`none` when the fuel runs out while the job is still pending, so statements
about non-termination are fuel-parametric.  Network calls and sleeps are
recorded in an event log so that statements like "no network call is
performed" or "no later stage executes" are expressible.
-/

/-- Python `a or b` on two optional strings: `None` and `""` are falsy, so the
left operand is kept only when it is present and non-empty. -/
def pyOr (a b : Option String) : Option String :=
  match a with
  | some s => if s = "" then b else some s
  | none => b

/-- Python `str.strip()`: drop whitespace from both ends of the string. -/
def pyStrip (s : String) : String :=
  ⟨((s.data.dropWhile Char.isWhitespace).reverse.dropWhile
      Char.isWhitespace).reverse⟩

/-- `is_text_page`: the probe extraction result is `some text` when
`extract_text(pdf_path, maxpages=1)` returned `text`, and `none` when it
raised.  The function returns `bool(text.strip())`, and `False` on any
exception. -/
def is_text_page (probeResult : Option String) : Bool :=
  match probeResult with
  | some text => !(pyStrip text == "")
  | none => false

/-- `split_pdf`: pages are numbered `0 .. total_pages - 1`; each produced chunk
is the list of page numbers written to that chunk file.  Mirrors the source:
`chunks = ceil(total_pages / chunk_size)`; chunk `i` holds pages
`[i*chunk_size, min((i+1)*chunk_size, total_pages))`. -/
def split_pdf (total_pages chunk_size : Nat) : List (List Nat) :=
  (List.range ((total_pages + chunk_size - 1) / chunk_size)).map (fun i =>
    List.range' (i * chunk_size)
      (min (i * chunk_size + chunk_size) total_pages - i * chunk_size))

/-- `split_pdf` including the `PdfReader(input_pdf)` step: the parse oracle
either fails (the library raised a read error, which propagates) or yields the
page count of the parsed document. -/
def split_pdfE (parse : Except String Nat) (chunk_size : Nat) :
    Except String (List (List Nat)) :=
  match parse with
  | .error e => .error e
  | .ok total_pages => .ok (split_pdf total_pages chunk_size)

/-- One line of the NDJSON manifest built by `create_ndjson`. -/
structure NdjsonLine where
  custom_id : String
  model : String
  input : String
deriving DecidableEq, Repr

/-- `create_ndjson`: one manifest line per uploaded file id, in order;
record `i` (0-based) gets correlation id `chunk_<i+1>`. -/
def create_ndjson (scanned_file_ids : List String) : List NdjsonLine :=
  scanned_file_ids.enum.map (fun p =>
    ⟨"chunk_" ++ toString (p.1 + 1), "mistral-ocr", p.2⟩)

/-- Network calls and sleeps performed by the pipeline, in order.  The payload
of `uploadChunk` is the original chunk index of the uploaded file; the payload
of `sleep` is the interval slept. -/
inductive Ev where
  | uploadChunk (k : Nat)
  | uploadManifest
  | createJob
  | poll (k : Nat)
  | sleep (iv : Nat)
  | download
deriving DecidableEq, Repr

/-- Errors that abort the run. `httpError` carries the call whose
`raise_for_status()` fired; `keyError` is `data["status"]` on a poll body
with no `status` field; `extractionError` is a raising `extract_text` during
direct extraction (chunk index attached). -/
inductive RunErr where
  | extractionError (chunk : Nat)
  | httpError (call : Ev)
  | keyError
deriving DecidableEq, Repr

/-- An HTTP response whose JSON body carries one value of interest (a file or
job id): `raise_for_status()` raises exactly on status codes >= 400. -/
def httpResult (resp : Nat × String) (call : Ev) : Except RunErr String :=
  if resp.1 < 400 then .ok resp.2 else .error (.httpError call)

/-- `upload_file` for the scanned chunk with original index `k`:
post the file, `raise_for_status`, return the remote file id. -/
def upload_file (resp : Nat × String) (k : Nat) : Except RunErr String :=
  httpResult resp (.uploadChunk k)

/-- `upload_batch_file`: upload the NDJSON manifest, `raise_for_status`,
return its remote file id. -/
def upload_batch_file (resp : Nat × String) : Except RunErr String :=
  httpResult resp .uploadManifest

/-- `create_batch_job`: submit the job, `raise_for_status`, return the job id. -/
def create_batch_job (resp : Nat × String) : Except RunErr String :=
  httpResult resp .createJob

/-- The parsed JSON body of one `GET /batch/jobs/{id}` poll response, together
with the HTTP status code of that response (which the code never checks:
`wait_for_job` has no `raise_for_status`). -/
structure JobJson where
  httpStatus : Nat
  status : Option String
  output_files : Option (List String)
deriving DecidableEq, Repr

/-- The terminal statuses of the poll loop. -/
def terminalStatus (s : String) : Bool :=
  s == "completed" || s == "failed" || s == "cancelled"

/-- `wait_for_job`, fuel-indexed: `polls j` is the response to the `j`-th poll
request; `k` is the index of the next poll; `iv` the sleep interval.  Result
`.ok none` means the fuel ran out with the loop still going (the real loop is
unbounded); `.ok (some data)` is the returned job body; `.error .keyError`
models `data["status"]` raising.  The HTTP status of the poll response is
never consulted.  Events record each poll and each sleep between polls. -/
def wait_for_job (polls : Nat → JobJson) (iv k : Nat) :
    Nat → Except RunErr (Option JobJson) × List Ev
  | 0 => (.ok none, [])
  | fuel + 1 =>
    let data := polls k
    match data.status with
    | none => (.error .keyError, [Ev.poll k])
    | some s =>
      if terminalStatus s then (.ok (some data), [Ev.poll k])
      else
        match wait_for_job polls iv (k + 1) fuel with
        | (res, evs) => (res, Ev.poll k :: Ev.sleep iv :: evs)

/-- One parsed line of the downloaded results file: the two optional nested
response fields the code looks at. -/
structure RecordJson where
  output_text : Option String
  text : Option String
deriving DecidableEq, Repr

/-- `result.get("response",{}).get("output_text") or ...get("text") or ""`,
then `.strip()`. -/
def recordText (r : RecordJson) : String :=
  pyStrip ((pyOr (pyOr r.output_text r.text) (some "")).getD "")

/-- The response to `GET /files/{id}/content`: its HTTP status and the
parsed NDJSON lines of its body. -/
structure DownloadResp where
  httpStatus : Nat
  lines : List RecordJson
deriving DecidableEq, Repr

/-- `download_results`: `raise_for_status`, then one text per line of the
downloaded file, in file order. -/
def download_results (resp : DownloadResp) : Except RunErr (List String) :=
  if resp.httpStatus < 400 then .ok (resp.lines.map recordText)
  else .error (.httpError .download)

/-- The external world of one run: per-chunk extraction results (`none` means
the library raised) and the HTTP responses of each network call.  Chunks are
identified by their 0-based index in the split sequence. -/
structure Env where
  probe : Nat → Option String
  fullText : Nat → Option String
  uploadChunk : Nat → Nat × String
  uploadManifestResp : Nat × String
  createJobResp : Nat × String
  polls : Nat → JobJson
  downloadResp : DownloadResp

/-- The `[upload_file(p) for p in scanned_pages]` loop: uploads run strictly
in list order, each is logged, and the first failure aborts the remaining
uploads. -/
def uploadAll (upl : Nat → Nat × String) : List Nat → Except RunErr (List String) × List Ev
  | [] => (.ok [], [])
  | s :: rest =>
    match upload_file (upl s) s with
    | .error e => (.error e, [Ev.uploadChunk s])
    | .ok fid =>
      match uploadAll upl rest with
      | (.error e, evs) => (.error e, Ev.uploadChunk s :: evs)
      | (.ok ids, evs) => (.ok (fid :: ids), Ev.uploadChunk s :: evs)

/-- The direct-extraction loop over the text chunks: `extract_text(path)`
followed by `.strip()`; an extraction error propagates (unlike in the
classifier). -/
def extractAll (fullText : Nat → Option String) : List Nat → Except RunErr (List String)
  | [] => .ok []
  | p :: rest =>
    match fullText p with
    | none => .error (.extractionError p)
    | some t => (extractAll fullText rest).map (fun ts => pyStrip t :: ts)

/-- The text-classified chunk indices, in split order. -/
def textPages (env : Env) (n : Nat) : List Nat :=
  ((List.range n).partition (fun i => is_text_page (env.probe i))).1

/-- The scanned-classified chunk indices, in split order. -/
def scannedPages (env : Env) (n : Nat) : List Nat :=
  ((List.range n).partition (fun i => is_text_page (env.probe i))).2

/-- `main` after the split step, over `n` chunks: classify, extract the text
chunks, and if any chunk is scanned run the OCR batch client; finally join all
collected texts with a blank line.  The first component is the run outcome
(`.ok (some s)`: the final output file holds `s`; `.ok none`: the poll fuel
ran out with the loop still going, nothing written; `.error e`: the run
aborted with `e`).  The second component is the event log. -/
def runMain (env : Env) (n fuel : Nat) : Except RunErr (Option String) × List Ev :=
  match extractAll env.fullText (textPages env n) with
  | .error e => (.error e, [])
  | .ok merged =>
    if (scannedPages env n).isEmpty then
      (.ok (some (String.intercalate "\n\n" merged)), [])
    else
      match uploadAll env.uploadChunk (scannedPages env n) with
      | (.error e, evs) => (.error e, evs)
      | (.ok scanned_ids, evs1) =>
        let _manifest := create_ndjson scanned_ids
        match upload_batch_file env.uploadManifestResp with
        | .error e => (.error e, evs1 ++ [Ev.uploadManifest])
        | .ok _bfid =>
          match create_batch_job env.createJobResp with
          | .error e => (.error e, evs1 ++ [Ev.uploadManifest, Ev.createJob])
          | .ok _jid =>
            match wait_for_job env.polls 15 0 fuel with
            | (.error e, evs2) =>
              (.error e, evs1 ++ [Ev.uploadManifest, Ev.createJob] ++ evs2)
            | (.ok none, evs2) =>
              (.ok none, evs1 ++ [Ev.uploadManifest, Ev.createJob] ++ evs2)
            | (.ok (some job), evs2) =>
              match job.output_files with
              | some (_fid :: _) =>
                match download_results env.downloadResp with
                | .error e =>
                  (.error e,
                   evs1 ++ [Ev.uploadManifest, Ev.createJob] ++ evs2 ++ [Ev.download])
                | .ok ocr_texts =>
                  (.ok (some (String.intercalate "\n\n" (merged ++ ocr_texts))),
                   evs1 ++ [Ev.uploadManifest, Ev.createJob] ++ evs2 ++ [Ev.download])
              | _ =>
                (.ok (some (String.intercalate "\n\n" merged)),
                 evs1 ++ [Ev.uploadManifest, Ev.createJob] ++ evs2)

/-- The poll body keeps the loop going: it has a `status` field whose value is
not terminal. -/
def pendingBody (j : JobJson) : Bool :=
  match j.status with
  | some s => !terminalStatus s
  | none => false

/-- The poll body ends the loop: it has a `status` field with a terminal
value. -/
def terminalBody (j : JobJson) : Bool :=
  match j.status with
  | some s => terminalStatus s
  | none => false

/-- The event trace of a poll loop that runs `m` pending rounds and then sees
a terminal status: polls interleaved with fixed-interval sleeps, ending on the
final poll. -/
def pollEvents (iv k m : Nat) : List Ev :=
  match m with
  | 0 => [Ev.poll k]
  | m + 1 => Ev.poll k :: Ev.sleep iv :: pollEvents iv (k + 1) m

/-- A poll stream that is pending twice and then completed. -/
def pollsEx : Nat → JobJson := fun i =>
  if i < 2 then ⟨200, some "running", none⟩
  else ⟨200, some "completed", some ["fo"]⟩

/-- A run with one scanned chunk whose poll response carries HTTP status 500
while its JSON body says `completed`. -/
def envPoll500 : Env where
  probe := fun _ => none
  fullText := fun _ => none
  uploadChunk := fun _ => (200, "f0")
  uploadManifestResp := (200, "mf")
  createJobResp := (200, "jb")
  polls := fun _ => ⟨500, some "completed", none⟩
  downloadResp := ⟨200, []⟩

/-- A run with one scanned chunk whose upload gets HTTP status 500. -/
def envUpload500 : Env where
  probe := fun _ => none
  fullText := fun _ => some "d"
  uploadChunk := fun _ => (500, "x")
  uploadManifestResp := (200, "mf")
  createJobResp := (200, "jb")
  polls := fun _ => ⟨200, some "completed", none⟩
  downloadResp := ⟨200, []⟩

/-- A run in which every chunk is classified text-bearing. -/
def envAllText : Env where
  probe := fun _ => some "x"
  fullText := fun i => some (" t" ++ toString i ++ " ")
  uploadChunk := fun _ => (200, "f")
  uploadManifestResp := (200, "mf")
  createJobResp := (200, "jb")
  polls := fun _ => ⟨200, some "completed", none⟩
  downloadResp := ⟨200, []⟩

/-- A run whose batch job ends `failed` but still exposes an output file. -/
def envFailedJob : Env where
  probe := fun i => if i = 0 then some "x" else none
  fullText := fun _ => some "d0"
  uploadChunk := fun i => (200, "f" ++ toString i)
  uploadManifestResp := (200, "mf")
  createJobResp := (200, "jb")
  polls := fun i =>
    if i = 0 then ⟨200, some "running", none⟩
    else ⟨200, some "failed", some ["out1"]⟩
  downloadResp := ⟨200, [⟨some " o1 ", none⟩]⟩

/-- A run with one text chunk followed by two scanned chunks (one raising
probe, one whitespace-only probe). -/
def envMixed : Env where
  probe := fun i => if i = 0 then some "x" else if i = 1 then none else some "  "
  fullText := fun _ => some "d"
  uploadChunk := fun i => (200, "id" ++ toString i)
  uploadManifestResp := (200, "mf")
  createJobResp := (200, "jb")
  polls := fun _ => ⟨200, some "completed", some ["out"]⟩
  downloadResp := ⟨200, [⟨some "r1", none⟩, ⟨none, some "r2"⟩]⟩

/-- C1 (part): the ceiling count covers all pages. -/
theorem ceil_mul_ge (total cs : Nat) (hcs : 1 ≤ cs) :
    total ≤ (total + cs - 1) / cs * cs := by
  have hd := Nat.div_add_mod (total + cs - 1) cs
  have hm : (total + cs - 1) % cs < cs := Nat.mod_lt _ hcs
  have hc : (total + cs - 1) / cs * cs = cs * ((total + cs - 1) / cs) :=
    Nat.mul_comm _ _
  omega

/-- C1 (helper): joining the first `k` chunks yields the pages below
`min (k * cs) total`. -/
theorem split_pdf_join_aux (total cs : Nat) (hcs : 1 ≤ cs) :
    ∀ k, k ≤ (total + cs - 1) / cs →
      (((List.range k).map (fun i =>
        List.range' (i * cs) (min (i * cs + cs) total - i * cs))).flatten)
        = List.range' 0 (min (k * cs) total) := by
  intro k
  induction k with
  | zero => simp
  | succ k ih =>
    intro hk
    have hk' : k ≤ (total + cs - 1) / cs := Nat.le_of_succ_le hk
    have hmul : (k + 1) * cs ≤ total + cs - 1 :=
      (Nat.le_div_iff_mul_le hcs).mp hk
    have hsm : (k + 1) * cs = k * cs + cs := by ring
    have hlt : k * cs < total := by omega
    rw [List.range_succ, List.map_append, List.flatten_append, ih hk']
    have hminl : min (k * cs) total = k * cs := Nat.min_eq_left (Nat.le_of_lt hlt)
    have happ : List.range' 0 (k * cs) ++
        List.range' (k * cs) (min (k * cs + cs) total - k * cs)
        = List.range' 0 (min (k * cs + cs) total - k * cs + k * cs) := by
      have := List.range'_append 0 (k * cs) (min (k * cs + cs) total - k * cs) 1
      simpa using this
    have hsum : min (k * cs + cs) total - k * cs + k * cs
        = min ((k + 1) * cs) total := by omega
    simp only [List.map_cons, List.map_nil, List.flatten_cons, List.flatten_nil,
      List.append_nil, hminl]
    rw [happ, hsum]

/-- C1: for every chunk size at least 1 and page count, `split_pdf` produces
exactly `ceil(total_pages / chunk_size)` chunks (0 pages give 0 chunks), every
chunk holds at most `chunk_size` pages, and the chunks' page ranges
concatenated in order are exactly the original page sequence, each page once. -/
theorem split_pdf_correct (total_pages chunk_size : Nat) (hcs : 1 ≤ chunk_size) :
    (split_pdf total_pages chunk_size).length
      = (total_pages + chunk_size - 1) / chunk_size ∧
    split_pdf 0 chunk_size = [] ∧
    (∀ c ∈ split_pdf total_pages chunk_size, c.length ≤ chunk_size) ∧
    (split_pdf total_pages chunk_size).flatten = List.range total_pages := by
  refine ⟨by simp [split_pdf], ?_, ?_, ?_⟩
  · simp only [split_pdf]
    have h0 : (0 + chunk_size - 1) / chunk_size = 0 :=
      Nat.div_eq_of_lt (by omega)
    rw [h0]
    simp
  · intro c hc
    simp only [split_pdf, List.mem_map, List.mem_range] at hc
    obtain ⟨i, _, rfl⟩ := hc
    simp only [List.length_range']
    omega
  · have h := split_pdf_join_aux total_pages chunk_size hcs
      ((total_pages + chunk_size - 1) / chunk_size) (Nat.le_refl _)
    have hcover : total_pages ≤
        (total_pages + chunk_size - 1) / chunk_size * chunk_size :=
      ceil_mul_ge total_pages chunk_size hcs
    rw [split_pdf, h, Nat.min_eq_right hcover, List.range_eq_range']

/-- C1 witness: 7 pages in chunks of 3. -/
theorem split_pdf_correct_witness :
    (split_pdf 7 3).length = (7 + 3 - 1) / 3 ∧
    split_pdf 0 3 = [] ∧
    (∀ c ∈ split_pdf 7 3, c.length ≤ 3) ∧
    (split_pdf 7 3).flatten = List.range 7 :=
  split_pdf_correct 7 3 (by decide)

/-- C2: the classifier returns `true` exactly when the probe extraction
yielded text that is non-empty after trimming, and `false` in every other
case, including when extraction raised (it is a total function on the
extraction outcome, so no error propagates). -/
theorem is_text_page_spec (probeResult : Option String) :
    (is_text_page probeResult = true ↔
      ∃ t, probeResult = some t ∧ pyStrip t ≠ "") ∧
    (probeResult = none → is_text_page probeResult = false) := by
  constructor
  · cases probeResult with
    | none => simp [is_text_page]
    | some t => simp [is_text_page]
  · intro h
    subst h
    rfl

/-- C2 witness: a raised extraction gives `false`, non-whitespace text gives
`true`, whitespace-only text gives `false`. -/
theorem is_text_page_spec_witness :
    is_text_page none = false ∧
    is_text_page (some " hi ") = true ∧
    is_text_page (some "  ") = false :=
  ⟨(is_text_page_spec none).2 rfl,
   (is_text_page_spec (some " hi ")).1.mpr ⟨" hi ", rfl, by decide⟩,
   by decide⟩

/-- C4: on a successful download, `download_results` yields one text per line
in file order; each text is the first truthy of `response.output_text` and
`response.text` (a present-but-empty field counts as absent), defaulting to
`""` when both are absent or empty, and the selected text is trimmed. -/
theorem download_results_spec (resp : DownloadResp)
    (hok : resp.httpStatus < 400) :
    download_results resp = .ok (resp.lines.map recordText) ∧
    (∀ r : RecordJson,
      (∀ t, r.output_text = some t → t ≠ "" → recordText r = pyStrip t) ∧
      ((r.output_text = none ∨ r.output_text = some "") →
        ∀ t, r.text = some t → t ≠ "" → recordText r = pyStrip t) ∧
      ((r.output_text = none ∨ r.output_text = some "") →
        (r.text = none ∨ r.text = some "") → recordText r = "")) := by
  refine ⟨by simp [download_results, hok], ?_⟩
  intro r
  refine ⟨?_, ?_, ?_⟩
  · intro t ht hne
    simp [recordText, pyOr, ht, hne]
  · rintro (h | h) t ht hne <;> simp [recordText, pyOr, h, ht, hne]
  · rintro (h | h) (h2 | h2) <;> simp [recordText, pyOr, h, h2] <;> rfl

/-- C4 witness: a three-line result file whose middle record has neither
field contributes `""` at its position. -/
theorem download_results_spec_witness :
    download_results ⟨200, [⟨some " a ", none⟩, ⟨none, none⟩, ⟨none, some "b"⟩]⟩
      = .ok [pyStrip " a ", recordText ⟨none, none⟩, pyStrip "b"] ∧
    recordText ⟨none, none⟩ = "" := by
  have h := download_results_spec
    ⟨200, [⟨some " a ", none⟩, ⟨none, none⟩, ⟨none, some "b"⟩]⟩ (by decide)
  refine ⟨?_, (h.2 ⟨none, none⟩).2.2 (Or.inl rfl) (Or.inl rfl)⟩
  have h1 : recordText ⟨some " a ", none⟩ = pyStrip " a " :=
    (h.2 ⟨some " a ", none⟩).1 " a " rfl (by decide)
  have h3 : recordText ⟨none, some "b"⟩ = pyStrip "b" :=
    (h.2 ⟨none, some "b"⟩).2.1 (Or.inl rfl) "b" rfl (by decide)
  rw [h.1]
  simp [h1, h3]

/-- C5: the manifest has exactly one record per uploaded file id, in upload
order; the `k`-th record (0-based `k`) has correlation id `chunk_<k+1>`, the
OCR model name, and the `k`-th uploaded id as input. -/
theorem create_ndjson_spec (scanned_file_ids : List String) :
    (create_ndjson scanned_file_ids).length = scanned_file_ids.length ∧
    ∀ k (h1 : k < scanned_file_ids.length)
      (h2 : k < (create_ndjson scanned_file_ids).length),
      (create_ndjson scanned_file_ids).get ⟨k, h2⟩ =
        ⟨"chunk_" ++ toString (k + 1), "mistral-ocr",
          scanned_file_ids.get ⟨k, h1⟩⟩ := by
  refine ⟨by simp [create_ndjson], ?_⟩
  intro k h1 h2
  simp [create_ndjson, List.get_eq_getElem]

/-- C5 witness: two uploaded ids give two records with ids
`chunk_1`, `chunk_2` and the matching inputs. -/
theorem create_ndjson_spec_witness :
    (create_ndjson ["fa", "fb"]).length = 2 ∧
    (create_ndjson ["fa", "fb"]).get ⟨1, by decide⟩ =
      ⟨"chunk_" ++ toString (1 + 1), "mistral-ocr",
        ["fa", "fb"].get ⟨1, by decide⟩⟩ :=
  ⟨(create_ndjson_spec ["fa", "fb"]).1,
   (create_ndjson_spec ["fa", "fb"]).2 1 (by decide) (by decide)⟩

/-- C8 counterexample: a source PDF that parses successfully with zero pages
does not raise — `split_pdf` returns the empty chunk list. -/
theorem split_pdfE_zero_pages_no_raise :
    split_pdfE (.ok 0) 5 = .ok [] := rfl

/-- C8 amended: a parse failure (corrupt or encrypted source) propagates as
the read error, but a successfully parsed zero-page document yields the empty
chunk list rather than an error. -/
theorem split_pdfE_spec (chunk_size : Nat) :
    (∀ e, split_pdfE (.error e) chunk_size = .error e) ∧
    split_pdfE (.ok 0) chunk_size = .ok [] := by
  refine ⟨fun e => rfl, ?_⟩
  show Except.ok (split_pdf 0 chunk_size) = .ok []
  have h0 : (0 + chunk_size - 1) / chunk_size = 0 := by
    rcases Nat.eq_zero_or_pos chunk_size with h | h
    · subst h; rfl
    · exact Nat.div_eq_of_lt (by omega)
  simp only [split_pdf]
  rw [h0]
  simp

/-- Helper: a job returned by the poll loop always carries a terminal status. -/
theorem wait_ok_terminal (polls : Nat → JobJson) (iv : Nat) :
    ∀ fuel k job evs, wait_for_job polls iv k fuel = (.ok (some job), evs) →
      terminalBody job = true := by
  intro fuel
  induction fuel with
  | zero =>
    intro k job evs h
    simp [wait_for_job] at h
  | succ f ih =>
    intro k job evs h
    simp only [wait_for_job] at h
    cases hst : (polls k).status with
    | none => rw [hst] at h; simp at h
    | some s =>
      rw [hst] at h
      by_cases ht : terminalStatus s
      · simp [ht] at h
        simp [terminalBody, ← h.1, hst, ht]
      · rcases hw : wait_for_job polls iv (k + 1) f with ⟨res, evs2⟩
        rw [hw] at h
        simp [ht] at h
        exact ih (k + 1) job evs2 (by rw [hw, h.1])

/-- Helper: while every poll body is pending, the loop never returns, whatever
the fuel. -/
theorem wait_pending_forever (polls : Nat → JobJson) (iv : Nat)
    (hp : ∀ i, pendingBody (polls i) = true) :
    ∀ fuel k, (wait_for_job polls iv k fuel).1 = .ok none := by
  intro fuel
  induction fuel with
  | zero => intro k; rfl
  | succ f ih =>
    intro k
    have hk := hp k
    cases hst : (polls k).status with
    | none => simp [pendingBody, hst] at hk
    | some s =>
      have ht : terminalStatus s = false := by
        simp [pendingBody, hst] at hk
        simp [hk]
      have hres := ih (k + 1)
      simp only [wait_for_job]
      rw [hst]
      simp only [ht, Bool.false_eq_true, if_false]
      rcases hw : wait_for_job polls iv (k + 1) f with ⟨res, evs⟩
      rw [hw] at hres
      exact hres

/-- Helper: the poll loop returns the first terminal body, after `m` pending
rounds, given fuel for them. -/
theorem wait_first_terminal (polls : Nat → JobJson) (iv : Nat) :
    ∀ m k fuel, (∀ i, i < m → pendingBody (polls (k + i)) = true) →
      terminalBody (polls (k + m)) = true → m < fuel →
      wait_for_job polls iv k fuel =
        (.ok (some (polls (k + m))), pollEvents iv k m) := by
  intro m
  induction m with
  | zero =>
    intro k fuel hp ht hf
    obtain ⟨f, rfl⟩ : ∃ f, fuel = f + 1 := ⟨fuel - 1, by omega⟩
    simp only [Nat.add_zero] at ht
    cases hst : (polls k).status with
    | none => simp [terminalBody, hst] at ht
    | some s =>
      have hts : terminalStatus s = true := by
        simpa [terminalBody, hst] using ht
      simp only [wait_for_job]
      rw [hst]
      simp [hts, pollEvents]
  | succ m ih =>
    intro k fuel hp ht hf
    obtain ⟨f, rfl⟩ : ∃ f, fuel = f + 1 := ⟨fuel - 1, by omega⟩
    have hk := hp 0 (Nat.succ_pos m)
    simp only [Nat.add_zero] at hk
    cases hst : (polls k).status with
    | none => simp [pendingBody, hst] at hk
    | some s =>
      have hts : terminalStatus s = false := by
        simp [pendingBody, hst] at hk
        simp [hk]
      have ih' := ih (k + 1) f
        (fun i hi => by
          have := hp (i + 1) (by omega)
          rwa [show k + (i + 1) = k + 1 + i by omega] at this)
        (by rwa [show k + 1 + m = k + (m + 1) by omega])
        (by omega)
      simp only [wait_for_job]
      rw [hst]
      simp only [hts, if_false, Bool.false_eq_true]
      rw [ih']
      rw [show k + 1 + m = k + (m + 1) by omega, pollEvents]

/-- Helper: the poll loop never raises an HTTP error — it does not check the
HTTP status of poll responses. -/
theorem wait_no_httpError (polls : Nat → JobJson) (iv : Nat) :
    ∀ fuel k ev, (wait_for_job polls iv k fuel).1 ≠ .error (.httpError ev) := by
  intro fuel
  induction fuel with
  | zero => intro k ev h; simp [wait_for_job] at h
  | succ f ih =>
    intro k ev h
    simp only [wait_for_job] at h
    cases hst : (polls k).status with
    | none => rw [hst] at h; simp at h
    | some s =>
      rw [hst] at h
      by_cases ht : terminalStatus s
      · simp [ht] at h
      · rcases hw : wait_for_job polls iv (k + 1) f with ⟨res, evs⟩
        rw [hw] at h
        simp [ht] at h
        have := ih (k + 1) ev
        rw [hw] at this
        exact this h

/-- Helper: `pollEvents` spelled out — polls interleaved with fixed-interval
sleeps, ending on the final poll. -/
theorem pollEvents_eq_flatten (iv : Nat) :
    ∀ m k, pollEvents iv k m =
      ((List.range m).map (fun i => [Ev.poll (k + i), Ev.sleep iv])).flatten
        ++ [Ev.poll (k + m)] := by
  intro m
  induction m with
  | zero => intro k; simp [pollEvents]
  | succ m ih =>
    intro k
    rw [pollEvents, ih (k + 1), List.range_succ_eq_map]
    rw [List.map_cons, List.flatten_cons, List.map_map]
    have hmap : ((fun i => [Ev.poll (k + i), Ev.sleep iv]) ∘ Nat.succ)
        = fun i => [Ev.poll (k + 1 + i), Ev.sleep iv] := by
      funext i
      simp only [Function.comp_apply]
      have hi : k + Nat.succ i = k + 1 + i := by omega
      rw [hi]
    have h2 : k + (m + 1) = k + 1 + m := by omega
    rw [hmap, h2]
    simp

/-- C6: the poll loop never returns a job whose observed status lies outside
the terminal set; it returns exactly when a poll body carries a terminal
status, having polled once per round with a fixed-interval sleep between
consecutive polls; and there is no iteration bound — under all-pending poll
bodies the loop has not returned after any number of rounds. -/
theorem wait_for_job_spec (polls : Nat → JobJson) (iv k : Nat) :
    (∀ fuel job evs, wait_for_job polls iv k fuel = (.ok (some job), evs) →
      terminalBody job = true) ∧
    ((∀ i, pendingBody (polls i) = true) →
      ∀ fuel, (wait_for_job polls iv k fuel).1 = .ok none) ∧
    (∀ m fuel, (∀ i, i < m → pendingBody (polls (k + i)) = true) →
      terminalBody (polls (k + m)) = true → m < fuel →
      wait_for_job polls iv k fuel =
        (.ok (some (polls (k + m))),
          ((List.range m).map (fun i => [Ev.poll (k + i), Ev.sleep iv])).flatten
            ++ [Ev.poll (k + m)])) :=
  ⟨fun fuel job evs h => wait_ok_terminal polls iv fuel k job evs h,
   fun hp fuel => wait_pending_forever polls iv hp fuel k,
   fun m fuel hp ht hf => by
    rw [wait_first_terminal polls iv m k fuel hp ht hf, pollEvents_eq_flatten]⟩

/-- C6 witness: two pending rounds then `completed`; with fuel 4 the loop
returns the completed body after polls 0, 1, 2 with sleeps between them. -/
theorem wait_for_job_spec_witness :
    wait_for_job pollsEx 15 0 4 =
      (.ok (some (pollsEx 2)),
        ((List.range 2).map (fun i => [Ev.poll (0 + i), Ev.sleep 15])).flatten
          ++ [Ev.poll (0 + 2)]) :=
  (wait_for_job_spec pollsEx 15 0).2.2 2 4 (by decide) (by decide) (by decide)

/-- Helper: a successful upload loop returns the remote ids of the scanned
chunks in list order and logs exactly one upload event per chunk, in order. -/
theorem uploadAll_ok_spec (upl : Nat → Nat × String) :
    ∀ l ids evs, uploadAll upl l = (.ok ids, evs) →
      ids = l.map (fun s => (upl s).2) ∧ evs = l.map Ev.uploadChunk := by
  intro l
  induction l with
  | nil =>
    intro ids evs h
    simp only [uploadAll] at h
    injection h with h1 h2
    injection h1 with h1
    refine ⟨?_, ?_⟩ <;> simp [← h1, ← h2]
  | cons s rest ih =>
    intro ids evs h
    simp only [uploadAll, upload_file, httpResult] at h
    by_cases hs : (upl s).1 < 400
    · rw [if_pos hs] at h
      rcases hr : uploadAll upl rest with ⟨res, evs2⟩
      rw [hr] at h
      cases res with
      | error e => simp at h
      | ok ids2 =>
        simp at h
        obtain ⟨hids, hevs⟩ := ih ids2 evs2 (by rw [hr])
        simp [← h.1, ← h.2, hids, hevs]
    · rw [if_neg hs] at h
      simp at h

/-- Helper: a failing upload loop logs only chunk-upload events — no manifest
upload, job creation, poll, or download happens. -/
theorem uploadAll_error_events (upl : Nat → Nat × String) :
    ∀ l e evs, uploadAll upl l = (.error e, evs) →
      ∀ ev ∈ evs, ∃ j, ev = Ev.uploadChunk j := by
  intro l
  induction l with
  | nil =>
    intro e evs h
    simp [uploadAll] at h
  | cons s rest ih =>
    intro e evs h
    simp only [uploadAll, upload_file, httpResult] at h
    by_cases hs : (upl s).1 < 400
    · rw [if_pos hs] at h
      rcases hr : uploadAll upl rest with ⟨res, evs2⟩
      rw [hr] at h
      cases res with
      | error e2 =>
        simp at h
        intro ev hev
        rw [← h.2] at hev
        rcases List.mem_cons.mp hev with hev | hev
        · exact ⟨s, hev⟩
        · exact ih e2 evs2 (by rw [hr]) ev hev
      | ok ids2 => simp at h
    · rw [if_neg hs] at h
      simp at h
      intro ev hev
      rw [← h.2] at hev
      rcases List.mem_cons.mp hev with hev | hev
      · exact ⟨s, hev⟩
      · simp at hev

/-- Helper: when every extraction succeeds, the direct-extraction loop
returns the stripped texts in chunk order. -/
theorem extractAll_map (ft : Nat → Option String) :
    ∀ l, (∀ i ∈ l, ft i ≠ none) →
      extractAll ft l = .ok (l.map (fun i => pyStrip ((ft i).getD ""))) := by
  intro l
  induction l with
  | nil => intro _; rfl
  | cons p rest ih =>
    intro h
    have hp : ft p ≠ none := h p (List.mem_cons_self p rest)
    obtain ⟨t, ht⟩ := Option.ne_none_iff_exists.mp hp
    have hrest := ih (fun i hi => h i (List.mem_cons_of_mem p hi))
    simp [extractAll, ← ht, hrest, Except.map]

/-- Helper: the text-classified chunks are the chunk indices passing the
probe, in split order. -/
theorem textPages_eq (env : Env) (n : Nat) :
    textPages env n = (List.range n).filter (fun i => is_text_page (env.probe i)) := by
  simp [textPages, List.partition_eq_filter_filter]

/-- Helper: the scanned-classified chunks are the chunk indices failing the
probe, in split order. -/
theorem scannedPages_eq (env : Env) (n : Nat) :
    scannedPages env n =
      (List.range n).filter (fun i => !is_text_page (env.probe i)) := by
  simp only [scannedPages, List.partition_eq_filter_filter]
  rfl

/-- C7: when every chunk is classified text-bearing (and direct extraction
succeeds), the final output is the trimmed extracted texts of the chunks
joined by blank lines in original chunk order, and the event log is empty —
no upload, job creation, poll, or download is performed. -/
theorem main_all_text (env : Env) (n fuel : Nat)
    (hprobe : ∀ i, i < n → is_text_page (env.probe i) = true)
    (hfull : ∀ i, i < n → env.fullText i ≠ none) :
    runMain env n fuel =
      (.ok (some (String.intercalate "\n\n"
        ((List.range n).map (fun i => pyStrip ((env.fullText i).getD ""))))),
       []) := by
  have htext : textPages env n = List.range n := by
    rw [textPages_eq]
    exact List.filter_eq_self.mpr (fun a ha => hprobe a (List.mem_range.mp ha))
  have hscan : scannedPages env n = [] := by
    rw [scannedPages_eq, List.filter_eq_nil_iff]
    intro a ha
    simp [hprobe a (List.mem_range.mp ha)]
  have hex : extractAll env.fullText (textPages env n)
      = .ok ((List.range n).map (fun i => pyStrip ((env.fullText i).getD ""))) := by
    rw [htext]
    exact extractAll_map env.fullText (List.range n)
      (fun i hi => hfull i (List.mem_range.mp hi))
  simp [runMain, hex, hscan]

/-- C7 witness: two text chunks, no network events, blank-line join. -/
theorem main_all_text_witness :
    runMain envAllText 2 7 =
      (.ok (some (String.intercalate "\n\n"
        ((List.range 2).map (fun i => pyStrip ((envAllText.fullText i).getD ""))))),
       []) :=
  main_all_text envAllText 2 7 (by decide) (by decide)

/-- C9: once polling has returned a job — with any terminal status, `failed`
and `cancelled` included — the run raises no error on account of that status:
if the job's `output_files` is absent or empty the final output is written
from the direct-extraction texts alone (no download), and if `output_files`
is non-empty the first output file is downloaded and its texts merged,
regardless of which terminal status was observed. -/
theorem main_terminal_outcome (env : Env) (n fuel : Nat)
    (merged ids : List String) (evs1 evs2 : List Ev) (job : JobJson)
    (hex : extractAll env.fullText (textPages env n) = .ok merged)
    (hne : (scannedPages env n).isEmpty = false)
    (hup : uploadAll env.uploadChunk (scannedPages env n) = (.ok ids, evs1))
    (hman : env.uploadManifestResp.1 < 400)
    (hjob : env.createJobResp.1 < 400)
    (hwait : wait_for_job env.polls 15 0 fuel = (.ok (some job), evs2)) :
    ((job.output_files = none ∨ job.output_files = some []) →
      runMain env n fuel = (.ok (some (String.intercalate "\n\n" merged)),
        evs1 ++ [Ev.uploadManifest, Ev.createJob] ++ evs2)) ∧
    (∀ fid rest, job.output_files = some (fid :: rest) →
      env.downloadResp.httpStatus < 400 →
      runMain env n fuel = (.ok (some (String.intercalate "\n\n"
          (merged ++ env.downloadResp.lines.map recordText))),
        evs1 ++ [Ev.uploadManifest, Ev.createJob] ++ evs2 ++ [Ev.download])) := by
  have hman' : upload_batch_file env.uploadManifestResp
      = .ok env.uploadManifestResp.2 := by
    simp [upload_batch_file, httpResult, hman]
  have hjob' : create_batch_job env.createJobResp = .ok env.createJobResp.2 := by
    simp [create_batch_job, httpResult, hjob]
  constructor
  · rintro (hof | hof) <;>
      simp [runMain, hex, hne, hup, hman', hjob', hwait, hof]
  · intro fid rest hof hdl
    have hdl' : download_results env.downloadResp
        = .ok (env.downloadResp.lines.map recordText) := by
      simp [download_results, hdl]
    simp [runMain, hex, hne, hup, hman', hjob', hwait, hof, hdl']

/-- C9 witness: a job that ends `failed` yet exposes an output file — the run
downloads it, merges, and completes without error. -/
theorem main_terminal_outcome_witness :
    runMain envFailedJob 2 5 =
      (.ok (some (String.intercalate "\n\n"
        (["d0"] ++ envFailedJob.downloadResp.lines.map recordText))),
       [Ev.uploadChunk 1] ++ [Ev.uploadManifest, Ev.createJob]
         ++ [Ev.poll 0, Ev.sleep 15, Ev.poll 1] ++ [Ev.download]) :=
  (main_terminal_outcome envFailedJob 2 5 ["d0"] ["f1"]
      [Ev.uploadChunk 1] [Ev.poll 0, Ev.sleep 15, Ev.poll 1]
      ⟨200, some "failed", some ["out1"]⟩
      rfl rfl rfl (by decide) (by decide) rfl).2
    "out1" [] rfl (by decide)

/-- C3 counterexample: the poll status fetch receives HTTP status 500, yet the
run does not abort — the poll loop never checks the HTTP status, so the run
completes and writes the final output. -/
theorem poll_http_500_no_abort :
    (envPoll500.polls 0).httpStatus = 500 ∧
    runMain envPoll500 1 3 =
      (.ok (some ""),
       [Ev.uploadChunk 0, Ev.uploadManifest, Ev.createJob, Ev.poll 0]) :=
  ⟨rfl, rfl⟩

/-- C3 amended: a non-success HTTP response on a chunk upload, the manifest
upload, or the batch-job creation aborts the run at once with a raised HTTP
error and no later stage executes (the event log stops at the failing call);
the job-status fetch, however, never checks the HTTP status: polling never
raises an HTTP error, whatever status codes the poll responses carry. -/
theorem http_error_abort_spec (env : Env) (n fuel : Nat) (merged : List String)
    (hex : extractAll env.fullText (textPages env n) = .ok merged)
    (hne : (scannedPages env n).isEmpty = false) :
    (∀ e evs, uploadAll env.uploadChunk (scannedPages env n) = (.error e, evs) →
      runMain env n fuel = (.error e, evs) ∧
      ∀ ev ∈ evs, ∃ j, ev = Ev.uploadChunk j) ∧
    (∀ ids evs1, uploadAll env.uploadChunk (scannedPages env n) = (.ok ids, evs1) →
      400 ≤ env.uploadManifestResp.1 →
      runMain env n fuel =
        (.error (.httpError .uploadManifest), evs1 ++ [Ev.uploadManifest])) ∧
    (∀ ids evs1, uploadAll env.uploadChunk (scannedPages env n) = (.ok ids, evs1) →
      env.uploadManifestResp.1 < 400 → 400 ≤ env.createJobResp.1 →
      runMain env n fuel =
        (.error (.httpError .createJob),
         evs1 ++ [Ev.uploadManifest, Ev.createJob])) ∧
    (∀ ev, (wait_for_job env.polls 15 0 fuel).1 ≠ .error (.httpError ev)) := by
  refine ⟨?_, ?_, ?_, fun ev => wait_no_httpError env.polls 15 fuel 0 ev⟩
  · intro e evs hupErr
    exact ⟨by simp [runMain, hex, hne, hupErr],
      uploadAll_error_events env.uploadChunk (scannedPages env n) e evs hupErr⟩
  · intro ids evs1 hup h500
    have hman' : upload_batch_file env.uploadManifestResp
        = .error (.httpError .uploadManifest) := by
      unfold upload_batch_file httpResult
      rw [if_neg (by omega)]
    simp [runMain, hex, hne, hup, hman']
  · intro ids evs1 hup hman h500
    have hman' : upload_batch_file env.uploadManifestResp
        = .ok env.uploadManifestResp.2 := by
      simp [upload_batch_file, httpResult, hman]
    have hjob' : create_batch_job env.createJobResp
        = .error (.httpError .createJob) := by
      unfold create_batch_job httpResult
      rw [if_neg (by omega)]
    simp [runMain, hex, hne, hup, hman', hjob']

/-- C3 witness: a 500 on the first chunk upload aborts the run with only that
upload in the event log. -/
theorem http_error_abort_spec_witness :
    runMain envUpload500 1 3 =
      (.error (.httpError (.uploadChunk 0)), [Ev.uploadChunk 0]) :=
  ((http_error_abort_spec envUpload500 1 3 [] rfl rfl).1
    (.httpError (.uploadChunk 0)) [Ev.uploadChunk 0] rfl).1

/-- C10: the scanned chunks are exactly the probe-failing chunk indices in
split order (a strictly increasing sequence), a successful upload pass yields
their remote ids in that same order, and manifest record `k` (0-based) pairs
correlation id `chunk_<k+1>` with the id of the `k`-th scanned chunk in
original document order. -/
theorem scanned_upload_order (env : Env) (n : Nat) (ids : List String)
    (evs : List Ev)
    (hup : uploadAll env.uploadChunk (scannedPages env n) = (.ok ids, evs)) :
    scannedPages env n
      = (List.range n).filter (fun i => !is_text_page (env.probe i)) ∧
    List.Pairwise (· < ·) (scannedPages env n) ∧
    ids.length = (scannedPages env n).length ∧
    (∀ k (h1 : k < (scannedPages env n).length) (h2 : k < ids.length),
      ids.get ⟨k, h2⟩ = (env.uploadChunk ((scannedPages env n).get ⟨k, h1⟩)).2) ∧
    (∀ k (h2 : k < ids.length) (h3 : k < (create_ndjson ids).length),
      (create_ndjson ids).get ⟨k, h3⟩ =
        ⟨"chunk_" ++ toString (k + 1), "mistral-ocr", ids.get ⟨k, h2⟩⟩) := by
  obtain ⟨hids, -⟩ :=
    uploadAll_ok_spec env.uploadChunk (scannedPages env n) ids evs hup
  refine ⟨scannedPages_eq env n, ?_, ?_, ?_, ?_⟩
  · rw [scannedPages_eq]
    exact List.Pairwise.filter _ (List.pairwise_lt_range n)
  · rw [hids]
    simp
  · intro k h1 h2
    subst hids
    simp [List.get_eq_getElem]
  · intro k h2 h3
    simp [create_ndjson, List.get_eq_getElem]

/-- C10 witness: chunks 1 and 2 are scanned (in order); the second manifest
record is `chunk_2` with the id uploaded for chunk 2. -/
theorem scanned_upload_order_witness :
    scannedPages envMixed 3
      = (List.range 3).filter (fun i => !is_text_page (envMixed.probe i)) ∧
    (["id1", "id2"].get ⟨1, by decide⟩ : String) =
      (envMixed.uploadChunk ((scannedPages envMixed 3).get ⟨1, by decide⟩)).2 ∧
    (create_ndjson ["id1", "id2"]).get ⟨1, by decide⟩ =
      ⟨"chunk_" ++ toString (1 + 1), "mistral-ocr",
        ["id1", "id2"].get ⟨1, by decide⟩⟩ := by
  have h := scanned_upload_order envMixed 3 ["id1", "id2"]
    [Ev.uploadChunk 1, Ev.uploadChunk 2] rfl
  exact ⟨h.1, h.2.2.2.1 1 (by decide) (by decide),
    h.2.2.2.2 1 (by decide) (by decide)⟩
